import Mathlib

/-!
Verification development for the phase-1 analysis orchestrator
(`scripts/run_phase1_analysis.py`).

The Python source is shallowly embedded: the filesystem objects the script
inspects are passed in explicitly (a directory is the list of names of its
direct children, a file is its contents, an absent path is `none`), the
registry YAML document is a list of records, and `datetime.now()` is an
explicit `Nat` clock threaded through the orchestrator.
-/

set_option autoImplicit false

namespace Phase1

/-- Python's substring test `needle in haystack`. -/
def strContains (haystack needle : String) : Bool :=
  (List.range (haystack.toList.length + 1)).any
    (fun i => needle.toList.isPrefixOf (haystack.toList.drop i))

/-- Python's `str.lower()`, applied character by character. -/
def pyLower (s : String) : String :=
  String.mk (s.toList.map Char.toLower)

/-- The `success_phrases` list of `check_transform_success` (lines 104-109). -/
def success_phrases : List String :=
  ["successfully completed with all exit criteria met",
   "comprehensive codebase analysis transformation has been successfully completed",
   "successfully completed",
   "all exit criteria met"]

/-- The `required_outputs` marker names of `check_transform_success` (lines 80-86). -/
def required_outputs : List String :=
  ["Documentation", ".aws", ".atx", "transform_output", "analysis_output"]

/-- The `results` dict built by `check_transform_success` (lines 72-77). -/
structure EvalDetails where
  outputs_found : List String
  outputs_missing : List String
  log_success_message : Bool
  log_validation_status : Bool
deriving DecidableEq

/-- The `(is_success, confidence, results)` triple returned by
`check_transform_success` (line 144). -/
structure EvalResult where
  is_success : Bool
  confidence : String
  details : EvalDetails
deriving DecidableEq

/-- `check_transform_success(clone_path, log_file_path)` (lines 62-144).
`cloneDir` is `none` when `clone_path` does not exist, otherwise the names of
the entries that exist under it; `logContent` is `none` when the log file does
not exist, otherwise its text. -/
def check_transform_success (cloneDir : Option (List String))
    (logContent : Option String) : EvalResult :=
  let found := match cloneDir with
    | some entries => required_outputs.filter (fun n => entries.contains n)
    | none => []
  let missing := match cloneDir with
    | some entries => required_outputs.filter (fun n => !(entries.contains n))
    | none => []
  let log_success := match logContent with
    | some c => success_phrases.any (fun p => strContains (pyLower c) p)
    | none => false
  let log_validation := match logContent with
    | some c => strContains (pyLower c) "validation status" &&
                strContains (pyLower c) "approved"
    | none => false
  let output_count := found.length
  let has_docs := found.contains "Documentation"
  let is_success := log_success || (decide (2 ≤ output_count) && has_docs)
  let confidence :=
    if log_success && decide (2 ≤ output_count) then "high"
    else if log_success || (decide (2 ≤ output_count) && has_docs) then "medium"
    else "low"
  { is_success := is_success, confidence := confidence,
    details := { outputs_found := found, outputs_missing := missing,
                 log_success_message := log_success,
                 log_validation_status := log_validation } }

/-- One record of the `repos:` list of `analysis_registry.yaml`.
`notes = none` models the `notes` key being absent. -/
structure RegistryEntry where
  repo_name : String
  git_url : String
  language : String
  analysis_status : String
  analysis_date : Nat
  notes : Option String
deriving DecidableEq

/-- Python truthiness of the `notes` argument (`if notes:`): `None` and the
empty string are falsy. -/
def notesTruthy : Option String → Bool
  | some s => !(s == "")
  | none => false

/-- Lookup of the first registry record with the given `repo_name`
(the search loop at lines 156-160 and 226-229). -/
def findEntry (repos : List RegistryEntry) (name : String) : Option RegistryEntry :=
  repos.find? (fun r => r.repo_name == name)

/-- The status of the first record with the given name, if any. -/
def statusOf (repos : List RegistryEntry) (name : String) : Option String :=
  (findEntry repos name).map (fun r => r.analysis_status)

/-- `update_registry_entry(registry_data, repo_name, git_url, status, language,
notes)` (lines 147-186), with `datetime.now()` passed in as `now`.  The first
record whose `repo_name` matches is updated in place; when none matches a new
record is appended at the end. -/
def update_registry_entry (repos : List RegistryEntry) (repo_name git_url status
    language : String) (notes : Option String) (now : Nat) : List RegistryEntry :=
  match repos with
  | [] =>
    [{ repo_name := repo_name, git_url := git_url, language := language,
       analysis_status := status, analysis_date := now,
       notes := if notesTruthy notes then notes else none }]
  | e :: rest =>
    if e.repo_name == repo_name then
      { e with
        analysis_status := status,
        analysis_date := now,
        language := if language == "unknown" then e.language else language,
        notes :=
          if notesTruthy notes then notes
          else if e.notes.isSome && status == "analyzed" then none
          else e.notes } :: rest
    else
      e :: update_registry_entry rest repo_name git_url status language notes now

/-- One `{name, git_url}` record produced by discovery. -/
structure RepoRef where
  name : String
  git_url : String
deriving DecidableEq

/-- The environment one repository's turn runs against: whether the stale-copy
removal plus `git clone` succeeds, whether the `atx` invocation exits 0, the
names present under `clone_path` once the turn's `finally` block runs, and the
text the invocation streamed into the log file. -/
structure RepoEnv where
  cloneOk : Bool
  atxOk : Bool
  cloneContents : List String
  logOutput : String
deriving DecidableEq

/-- On-disk log files, keyed by repository name
(file `repos/<name>_transform.log`). -/
def setLog (logs : List (String × String)) (name content : String) :
    List (String × String) :=
  (name, content) :: logs

/-- Contents of `repos/<name>_transform.log`, `none` when the file is absent. -/
def lookupLog (logs : List (String × String)) (name : String) : Option String :=
  (logs.find? (fun p => p.1 == name)).map (fun p => p.2)

/-- The orchestrator's in-flight state: the in-memory registry, the log files
written so far in this run, the current value of the Python local variable
`log_file_path` (as the repository name whose log it denotes; `none` while the
variable is still unassigned), the clock, and counters of `save_registry`
calls and of clone attempts. -/
structure OrchState where
  registry : List RegistryEntry
  logs : List (String × String)
  logVar : Option String
  clock : Nat
  saves : Nat
  clones : Nat
deriving DecidableEq

/-- How a repository's turn can leave the per-repository loop early:
`nameError` is the unhandled `NameError` raised when the `finally` block reads
`log_file_path` before any assignment; `exitOne` is the `sys.exit(1)` at lines
450-452. -/
inductive TurnAbort where
  | nameError
  | exitOne
deriving DecidableEq

/-- The notes string built on the success branch (lines 396-410). -/
def successNotes (confidence : String) (found : List String)
    (logSuccess transformSucceeded : Bool) : String :=
  let output_list := if found.isEmpty then "none" else String.intercalate ", " found
  let parts := ["Analysis completed (confidence: " ++ confidence ++ "). Outputs: "
                  ++ output_list]
  let parts := if logSuccess then parts ++ ["Log confirms successful completion"]
               else parts
  let parts := if transformSucceeded then parts
               else parts ++ ["Process exit code indicated error, but outputs confirm success"]
  String.intercalate " | " parts

/-- The notes string built on the limited-outputs branch (line 422). -/
def limitedNote (found : List String) : String :=
  "Process completed but limited outputs found. Outputs: " ++
    (if found.isEmpty then "none" else String.intercalate ", " found)

/-- The notes string built on the failure branch (lines 428-435);
`repos_dir.name` is the literal `"repos"`. -/
def failureNote (missing : List String) (repoName : String) : String :=
  "Transform execution failed. Missing outputs: " ++
    (if missing.isEmpty then "all" else String.intercalate ", " missing) ++
    ". Check repos/" ++ repoName ++ "_transform.log"

/-- One repository's turn (the loop body, lines 266-452): acquisition, the
`running` transition, the `atx` invocation, and the `finally` block that
evaluates, finalizes the ledger and may leave the loop.  When the clone fails
the `except` clauses set `transform_succeeded = False` and fall through to the
`finally` block with `log_file_path` still holding its previous value (unbound
on the first turn, which raises `NameError` at line 360). -/
def processRepo (st : OrchState) (repo : RepoRef) (env : RepoEnv) :
    OrchState × Option TurnAbort :=
  let st := { st with clones := st.clones + 1 }
  let afterTry :=
    if env.cloneOk then
      ({ st with
         registry := update_registry_entry st.registry repo.name repo.git_url
           "running" "unknown" none st.clock,
         clock := st.clock + 1,
         saves := st.saves + 1,
         logVar := some repo.name,
         logs := setLog st.logs repo.name env.logOutput }, env.atxOk, true)
    else
      (st, false, false)
  let st := afterTry.1
  let transform_succeeded := afterTry.2.1
  let cloneExists := afterTry.2.2
  match st.logVar with
  | none => (st, some TurnAbort.nameError)
  | some logName =>
    let cloneDir := if cloneExists then some env.cloneContents else none
    let res := check_transform_success cloneDir (lookupLog st.logs logName)
    let st :=
      if res.is_success then
        { st with
          registry := update_registry_entry st.registry repo.name repo.git_url
            "analyzed" "unknown"
            (some (successNotes res.confidence res.details.outputs_found
              res.details.log_success_message transform_succeeded)) st.clock,
          clock := st.clock + 1, saves := st.saves + 1 }
      else if transform_succeeded then
        { st with
          registry := update_registry_entry st.registry repo.name repo.git_url
            "analyzed" "unknown" (some (limitedNote res.details.outputs_found))
            st.clock,
          clock := st.clock + 1, saves := st.saves + 1 }
      else
        { st with
          registry := update_registry_entry st.registry repo.name repo.git_url
            "failed" "unknown"
            (some (failureNote res.details.outputs_missing repo.name)) st.clock,
          clock := st.clock + 1, saves := st.saves + 1 }
    if !res.is_success && !transform_succeeded then (st, some TurnAbort.exitOne)
    else (st, none)

/-- How the whole run ends. -/
inductive BatchOutcome where
  | completed
  | abortedNameError
  | abortedExitOne
deriving DecidableEq

/-- The `for repo in repos:` loop (lines 266-452).  Also returns the names of
the repositories whose turns were entered, in order. -/
def runLoop (st : OrchState) :
    List (RepoRef × RepoEnv) → OrchState × BatchOutcome × List String
  | [] => (st, BatchOutcome.completed, [])
  | (repo, env) :: rest =>
    match processRepo st repo env with
    | (st', none) =>
      let r := runLoop st' rest
      (r.1, r.2.1, repo.name :: r.2.2)
    | (st', some TurnAbort.nameError) => (st', BatchOutcome.abortedNameError, [repo.name])
    | (st', some TurnAbort.exitOne) => (st', BatchOutcome.abortedExitOne, [repo.name])

/-- The skip filter (lines 221-242): a discovered repository whose registry
entry is already `analyzed` is skipped unless `--force` was given. -/
def selectRepos (registry : List RegistryEntry) (force : Bool)
    (discovered : List (RepoRef × RepoEnv)) : List (RepoRef × RepoEnv) :=
  discovered.filter (fun p =>
    match findEntry registry p.1.name with
    | some e => !(e.analysis_status == "analyzed") || force
    | none => true)

/-- The pending-marking loop (lines 253-260): every repository selected for
analysis is upserted to `pending` before the main loop starts. -/
def markPending : List RegistryEntry → Nat → List (RepoRef × RepoEnv) →
    List RegistryEntry × Nat
  | reg, c, [] => (reg, c)
  | reg, c, (r, _) :: rest =>
    markPending (update_registry_entry reg r.name r.git_url "pending" "unknown" none c)
      (c + 1) rest

/-- The outcome of one invocation of `main()`. -/
structure RunResult where
  registry : List RegistryEntry
  clones : Nat
  saves : Nat
  outcome : BatchOutcome
  processed : List String
deriving DecidableEq

/-- `main()` (lines 189-456) for a given discovered list and per-repository
environments: load the registry, filter out already-analyzed repositories,
return early when nothing is left, otherwise mark the selected repositories
`pending`, save once, and run the per-repository loop. -/
def mainRun (registry0 : List RegistryEntry) (discovered : List (RepoRef × RepoEnv))
    (force : Bool) : RunResult :=
  let toAnalyze := selectRepos registry0 force discovered
  if toAnalyze.isEmpty then
    { registry := registry0, clones := 0, saves := 0,
      outcome := BatchOutcome.completed, processed := [] }
  else
    let marked := markPending registry0 0 toAnalyze
    let st0 : OrchState :=
      { registry := marked.1, logs := [], logVar := none, clock := marked.2,
        saves := 1, clones := 0 }
    let r := runLoop st0 toAnalyze
    { registry := r.1.registry, clones := r.1.clones, saves := r.1.saves,
      outcome := r.2.1, processed := r.2.2 }

/-- `save_registry` (lines 56-59) writes via `open(registry_path, "w")` +
`yaml.dump`: the file is truncated in place and the new serialization is then
written sequentially into the same path.  This is the sequence of on-disk
contents observable during one save, at character granularity: the truncated
empty file followed by each prefix of the new contents, ending with the
complete new contents. -/
def save_registry_observable (newContents : List Char) : List (List Char) :=
  (List.range (newContents.length + 1)).map (fun i => newContents.take i)

/-- The `transform_output_folders` list of `main` (lines 363-369). -/
def transform_output_folders : List String :=
  [".aws", "Documentation", ".atx", "transform_output", "analysis_output"]

/-- The copy filter of the collection loop (lines 374-378): `.git` is skipped,
and an item is copied when its name is a recognized marker or starts with
`.aws`. -/
def collectItem (name : String) : Bool :=
  !(name == ".git") && (transform_output_folders.contains name ||
    name.startsWith ".aws")

/-- File lookup in a flat directory subtree (relative path to contents). -/
def lookupFile (t : List (String × String)) (p : String) : Option String :=
  (t.find? (fun q => q.1 == p)).map (fun q => q.2)

/-- `shutil.copytree(src, dest, dirs_exist_ok=True)` (line 382) on flat
subtrees: files from `src` are written over same-named files in `dest`, and
files present only in `dest` are kept untouched. -/
def copytree_merge (src dest : List (String × String)) : List (String × String) :=
  src ++ dest.filter (fun q => (src.find? (fun r => r.1 == q.1)).isNone)

/-- Top-level lookup in the destination directory (name of a copied marker to
its subtree). -/
def lookupDir (d : List (String × List (String × String))) (n : String) :
    Option (List (String × String)) :=
  (d.find? (fun q => q.1 == n)).map (fun q => q.2)

/-- Replace (or create) one top-level subtree of the destination directory. -/
def setDir (d : List (String × List (String × String))) (n : String)
    (t : List (String × String)) : List (String × List (String × String)) :=
  (n, t) :: d.filter (fun q => !(q.1 == n))

/-- The collection loop of `main` (lines 371-391), restricted to directory
markers (each item of the working directory is a subtree): every item passing
the copy filter is merged into the same-named subtree of the destination via
`copytree_merge`, and the number of items copied is returned. -/
def collectOutputs : List (String × List (String × String)) →
    List (String × List (String × String)) →
    List (String × List (String × String)) × Nat
  | [], dest => (dest, 0)
  | item :: rest, dest =>
    if collectItem item.1 then
      let merged := copytree_merge item.2 ((lookupDir dest item.1).getD [])
      let r := collectOutputs rest (setDir dest item.1 merged)
      (r.1, r.2 + 1)
    else collectOutputs rest dest

/-- A concrete previously failed ledger entry used by the C6 witness. -/
def sampleFailedEntry : RegistryEntry :=
  { repo_name := "repo-a", git_url := "url-a", language := "java",
    analysis_status := "failed", analysis_date := 3,
    notes := some "Transform execution failed" }

/-- A concrete orchestrator state used by the C1 witness. -/
def w1State : OrchState :=
  { registry := [], logs := [], logVar := none, clock := 0, saves := 1,
    clones := 0 }

/-- A concrete batch used by the C1 witness: the first repository clones but
its process fails with no outputs, the second is never reached. -/
def w1Batch : List (RepoRef × RepoEnv) :=
  [({ name := "w1", git_url := "wu1" },
    { cloneOk := true, atxOk := false, cloneContents := [], logOutput := "" }),
   ({ name := "w2", git_url := "wu2" },
    { cloneOk := true, atxOk := true, cloneContents := [], logOutput := "" })]

/-- A ledger in which both discovered repositories are already analyzed, used
by the C7 witness. -/
def c7Registry : List RegistryEntry :=
  [{ repo_name := "s1", git_url := "su1", language := "python",
     analysis_status := "analyzed", analysis_date := 11, notes := none },
   { repo_name := "s2", git_url := "su2", language := "java",
     analysis_status := "analyzed", analysis_date := 12,
     notes := some "Analysis completed (confidence: high). Outputs: Documentation" }]

/-- The discovered batch used by the C7 witness. -/
def c7Batch : List (RepoRef × RepoEnv) :=
  [({ name := "s1", git_url := "su1" },
    { cloneOk := true, atxOk := true, cloneContents := [], logOutput := "" }),
   ({ name := "s2", git_url := "su2" },
    { cloneOk := true, atxOk := true, cloneContents := [], logOutput := "" })]

/-- The one-entry ledger used by the C8 witness. -/
def c8Registry : List RegistryEntry :=
  [{ repo_name := "t1", git_url := "v1", language := "unknown",
     analysis_status := "analyzed", analysis_date := 5, notes := none }]

/-- The discovered batch used by the C8 witness: `t1` is already analyzed,
`t2` is new. -/
def c8Batch : List (RepoRef × RepoEnv) :=
  [({ name := "t1", git_url := "v1" },
    { cloneOk := true, atxOk := true, cloneContents := [], logOutput := "" }),
   ({ name := "t2", git_url := "v2" },
    { cloneOk := true, atxOk := true, cloneContents := [], logOutput := "" })]

theorem two_le_length_of_mem_ne {α : Type} {l : List α} {a b : α}
    (ha : a ∈ l) (hb : b ∈ l) (hab : a ≠ b) : 2 ≤ l.length := by
  cases l with
  | nil => cases ha
  | cons x xs =>
    cases xs with
    | nil =>
      rw [List.mem_singleton] at ha hb
      exact absurd (ha.trans hb.symm) hab
    | cons y ys => simp only [List.length_cons]; omega

theorem find?_filter_of_pred {α : Type} (l : List α) (p f : α → Bool)
    (h : ∀ a ∈ l, p a = true → f a = true) :
    (l.filter f).find? p = l.find? p := by
  induction l with
  | nil => rfl
  | cons a rest ih =>
    have hrest := ih (fun b hb => h b (List.mem_cons_of_mem a hb))
    rw [List.filter_cons]
    cases hp : p a with
    | true =>
      rw [h a (List.mem_cons_self a rest) hp]
      simp [List.find?_cons, hp]
    | false =>
      cases hf : f a with
      | true => simp [List.find?_cons, hp, hrest]
      | false => simp [List.find?_cons, hp, hrest]

theorem statusOf_update_self (reg : List RegistryEntry) (n u s l : String)
    (no : Option String) (t : Nat) :
    statusOf (update_registry_entry reg n u s l no t) n = some s := by
  induction reg with
  | nil => simp [update_registry_entry, statusOf, findEntry]
  | cons e rest ih =>
    cases h : (e.repo_name == n) with
    | true => simp [update_registry_entry, h, statusOf, findEntry]
    | false =>
      simp only [statusOf, findEntry] at ih ⊢
      simp [update_registry_entry, h, List.find?_cons, ih]

theorem findEntry_update_other (reg : List RegistryEntry) (n m u s l : String)
    (no : Option String) (t : Nat) (hnm : n ≠ m) :
    findEntry (update_registry_entry reg m u s l no t) n = findEntry reg n := by
  have hmn : (m == n) = false := beq_eq_false_iff_ne.mpr (fun h => hnm h.symm)
  induction reg with
  | nil => simp [update_registry_entry, findEntry, List.find?_cons, hmn]
  | cons e rest ih =>
    cases h : (e.repo_name == m) with
    | true =>
      have hen : (e.repo_name == n) = false := by
        rw [beq_iff_eq] at h
        rw [h, hmn]
      simp [update_registry_entry, h, findEntry, List.find?_cons, hen]
    | false =>
      simp only [findEntry] at ih ⊢
      cases he : (e.repo_name == n) with
      | true => simp [update_registry_entry, h, List.find?_cons, he]
      | false => simp [update_registry_entry, h, List.find?_cons, he, ih]

theorem markPending_preserves (l : List (RepoRef × RepoEnv)) :
    ∀ (reg : List RegistryEntry) (c : Nat) (n : String),
      (∀ q ∈ l, q.1.name ≠ n) →
      findEntry (markPending reg c l).1 n = findEntry reg n := by
  induction l with
  | nil => intro reg c n _; rfl
  | cons q rest ih =>
    intro reg c n h
    obtain ⟨r, e⟩ := q
    rw [markPending, ih _ _ _ (fun p hp => h p (List.mem_cons_of_mem _ hp))]
    exact findEntry_update_other reg n r.name r.git_url "pending" "unknown" none c
      (fun he => h (r, e) (List.mem_cons_self _ _) he.symm)

theorem markPending_sets_pending (l : List (RepoRef × RepoEnv)) :
    ∀ (reg : List RegistryEntry) (c : Nat) (p : RepoRef × RepoEnv),
      p ∈ l → statusOf (markPending reg c l).1 p.1.name = some "pending" := by
  induction l with
  | nil => intro reg c p hp; cases hp
  | cons q rest ih =>
    intro reg c p hp
    obtain ⟨r, e⟩ := q
    rcases List.mem_cons.mp hp with h | h
    · subst h
      rw [markPending]
      by_cases hmem : ∃ p' ∈ rest, p'.1.name = r.name
      · obtain ⟨p', hp', hname⟩ := hmem
        have := ih (update_registry_entry reg r.name r.git_url "pending" "unknown"
          none c) (c + 1) p' hp'
        rw [hname] at this
        exact this
      · push_neg at hmem
        rw [statusOf, markPending_preserves rest _ _ _ hmem]
        exact statusOf_update_self reg r.name r.git_url "pending" "unknown" none c
    · exact ih _ _ p h

theorem lookupLog_setLog (logs : List (String × String)) (name content : String) :
    lookupLog (setLog logs name content) name = some content := by
  simp [lookupLog, setLog]

theorem confidence_cases (a : Bool) (cnt : Nat) (docs : Bool) :
    ((if a && decide (2 ≤ cnt) then "high"
      else if a || (decide (2 ≤ cnt) && docs) then "medium" else "low") = "high" ↔
      (a = true ∧ 2 ≤ cnt)) ∧
    ((if a && decide (2 ≤ cnt) then "high"
      else if a || (decide (2 ≤ cnt) && docs) then "medium" else "low") = "medium" ↔
      ((a = true ∧ cnt < 2) ∨ (a = false ∧ 2 ≤ cnt ∧ docs = true))) ∧
    ((if a && decide (2 ≤ cnt) then "high"
      else if a || (decide (2 ≤ cnt) && docs) then "medium" else "low") = "low" ↔
      (a = false ∧ (cnt < 2 ∨ docs = false))) := by
  have hhm : ("high" : String) ≠ "medium" := by decide
  have hhl : ("high" : String) ≠ "low" := by decide
  have hmh : ("medium" : String) ≠ "high" := by decide
  have hml : ("medium" : String) ≠ "low" := by decide
  have hlh : ("low" : String) ≠ "high" := by decide
  have hlm : ("low" : String) ≠ "medium" := by decide
  cases a with
  | true =>
    by_cases hc : 2 ≤ cnt
    · simp [hc, hhm, hhl, Nat.not_lt.mpr hc]
    · simp [hc, hmh, hml, Nat.lt_of_not_le hc]
  | false =>
    by_cases hc : 2 ≤ cnt
    · cases docs with
      | true => simp [hc, hmh, hml, Nat.not_lt.mpr hc]
      | false => simp [hc, hlh, hlm, Nat.not_lt.mpr hc]
    · simp [hc, hlh, hlm, Nat.lt_of_not_le hc]

theorem lookupFile_copytree_merge_left (src dest : List (String × String)) (q : String)
    (h : (lookupFile src q).isSome = true) :
    lookupFile (copytree_merge src dest) q = lookupFile src q := by
  have hs : (src.find? (fun r => r.1 == q)).isSome = true := by
    rw [lookupFile, Option.isSome_map'] at h
    exact h
  rw [copytree_merge, lookupFile, List.find?_append, Option.or_of_isSome hs]
  rfl

theorem lookupFile_copytree_merge_right (src dest : List (String × String)) (q : String)
    (h : lookupFile src q = none) :
    lookupFile (copytree_merge src dest) q = lookupFile dest q := by
  have hs : src.find? (fun r => r.1 == q) = none := by
    rw [lookupFile] at h
    exact Option.map_eq_none'.mp h
  rw [copytree_merge, lookupFile, List.find?_append, hs, Option.none_or, lookupFile]
  congr 1
  apply find?_filter_of_pred
  intro w _ hw
  have hwq : w.1 = q := by
    rw [beq_iff_eq] at hw
    exact hw
  rw [hwq, hs]
  rfl

theorem lookupDir_setDir_self (d : List (String × List (String × String)))
    (n : String) (t : List (String × String)) :
    lookupDir (setDir d n t) n = some t := by
  simp [lookupDir, setDir]

theorem lookupDir_setDir_other (d : List (String × List (String × String)))
    (n m : String) (t : List (String × String)) (h : n ≠ m) :
    lookupDir (setDir d n t) m = lookupDir d m := by
  have hnm : (n == m) = false := beq_eq_false_iff_ne.mpr h
  rw [setDir, lookupDir, List.find?_cons]
  have hpair : (((n, t) : String × List (String × String)).1 == m) = false := hnm
  rw [hpair]
  rw [lookupDir]
  congr 1
  apply find?_filter_of_pred
  intro w _ hw
  have hwm : w.1 = m := by
    rw [beq_iff_eq] at hw
    exact hw
  have : (w.1 == n) = false := by
    rw [hwm]
    exact beq_eq_false_iff_ne.mpr (fun he => h he.symm)
  rw [this]
  rfl

theorem collectOutputs_preserves (items : List (String × List (String × String))) :
    ∀ (dest : List (String × List (String × String))) (n p : String),
      (lookupFile ((lookupDir dest n).getD []) p).isSome = true →
      (lookupFile ((lookupDir (collectOutputs items dest).1 n).getD []) p).isSome
        = true := by
  induction items with
  | nil => intro dest n p h; exact h
  | cons item rest ih =>
    intro dest n p h
    by_cases hc : collectItem item.1 = true
    · have hstep :
          (collectOutputs (item :: rest) dest).1 =
          (collectOutputs rest (setDir dest item.1
            (copytree_merge item.2 ((lookupDir dest item.1).getD [])))).1 := by
        rw [collectOutputs, if_pos hc]
      rw [hstep]
      apply ih
      by_cases hn : item.1 = n
      · subst hn
        rw [lookupDir_setDir_self, Option.getD_some]
        by_cases hsrc : (lookupFile item.2 p).isSome = true
        · rw [lookupFile_copytree_merge_left _ _ _ hsrc]
          exact hsrc
        · have hnone : lookupFile item.2 p = none :=
            Option.not_isSome_iff_eq_none.mp hsrc
          rw [lookupFile_copytree_merge_right _ _ _ hnone]
          exact h
      · rw [lookupDir_setDir_other _ _ _ _ hn]
        exact h
    · have hstep : (collectOutputs (item :: rest) dest).1 =
          (collectOutputs rest dest).1 := by
        rw [collectOutputs, if_neg hc]
      rw [hstep]
      exact ih dest n p h

/-- Claim C3: for every working directory and log file, the evaluator's success
decision equals `log_declares_success OR (count(outputs_found) >= 2 AND the
Documentation marker present)`; in particular, with exactly one marker present
that is not Documentation and no success phrase in the log, `is_success` is
false.  The decision is a function of the working directory and the log alone:
`check_transform_success` takes no process exit code as input. -/
theorem c3_success_decision (cloneDir : Option (List String))
    (logContent : Option String) (r : EvalResult)
    (hr : r = check_transform_success cloneDir logContent) :
    (r.is_success = (r.details.log_success_message ||
      (decide (2 ≤ r.details.outputs_found.length) &&
       r.details.outputs_found.contains "Documentation"))) ∧
    (r.details.outputs_found.length = 1 →
     r.details.outputs_found.contains "Documentation" = false →
     r.details.log_success_message = false →
     r.is_success = false) := by
  subst hr
  have h0 : (check_transform_success cloneDir logContent).is_success =
      ((check_transform_success cloneDir logContent).details.log_success_message ||
       (decide (2 ≤ (check_transform_success cloneDir
          logContent).details.outputs_found.length) &&
        (check_transform_success cloneDir
          logContent).details.outputs_found.contains "Documentation")) := rfl
  refine ⟨h0, fun h1 h2 h3 => ?_⟩
  rw [h0, h1, h2, h3]
  rfl

/-- Witness for C3 at a concrete input: one non-Documentation marker and no
log, hence no success. -/
theorem c3_success_decision_witness :
    (check_transform_success (some [".aws"]) none).is_success = false :=
  (c3_success_decision (some [".aws"]) none _ rfl).2 (by decide) (by decide)
    (by decide)

/-- Claim C4: the evaluator's confidence is `high` exactly when the log
declares success and at least 2 markers are present, `medium` when exactly one
of the two conditions holds (log success alone, or at least 2 markers with the
Documentation marker present), and `low` otherwise; and a working copy with
the Documentation marker plus one other recognized marker together with a log
containing "successfully completed with all exit criteria met" yields
`is_success = true` with `confidence = "high"`.  `check_transform_success`
takes no process exit code as input, so this holds regardless of the exit
code. -/
theorem c4_confidence_levels :
    (∀ (cloneDir : Option (List String)) (logContent : Option String)
       (r : EvalResult), r = check_transform_success cloneDir logContent →
      ((r.confidence = "high" ↔
         (r.details.log_success_message = true ∧
          2 ≤ r.details.outputs_found.length)) ∧
       (r.confidence = "medium" ↔
         ((r.details.log_success_message = true ∧
           r.details.outputs_found.length < 2) ∨
          (r.details.log_success_message = false ∧
           2 ≤ r.details.outputs_found.length ∧
           r.details.outputs_found.contains "Documentation" = true))) ∧
       (r.confidence = "low" ↔
         (r.details.log_success_message = false ∧
          (r.details.outputs_found.length < 2 ∨
           r.details.outputs_found.contains "Documentation" = false))))) ∧
    (∀ (entries : List String) (lg other : String),
      "Documentation" ∈ entries → other ∈ entries → other ∈ required_outputs →
      other ≠ "Documentation" →
      strContains (pyLower lg) "successfully completed with all exit criteria met"
        = true →
      (check_transform_success (some entries) (some lg)).is_success = true ∧
      (check_transform_success (some entries) (some lg)).confidence = "high") := by
  constructor
  · intro cloneDir logContent r hr
    subst hr
    exact confidence_cases
      ((check_transform_success cloneDir logContent).details.log_success_message)
      ((check_transform_success cloneDir logContent).details.outputs_found.length)
      ((check_transform_success cloneDir
        logContent).details.outputs_found.contains "Documentation")
  · intro entries lg other h1 h2 h3 h4 h5
    have hlog : (check_transform_success (some entries)
        (some lg)).details.log_success_message = true := by
      show success_phrases.any (fun p => strContains (pyLower lg) p) = true
      simp [success_phrases, h5]
    have hdoc_mem : "Documentation" ∈
        required_outputs.filter (fun n => entries.contains n) :=
      List.mem_filter.mpr ⟨by decide, List.elem_eq_true_of_mem h1⟩
    have hother_mem : other ∈
        required_outputs.filter (fun n => entries.contains n) :=
      List.mem_filter.mpr ⟨h3, List.elem_eq_true_of_mem h2⟩
    have hlen : 2 ≤ (check_transform_success (some entries)
        (some lg)).details.outputs_found.length :=
      two_le_length_of_mem_ne hdoc_mem hother_mem (fun he => h4 he.symm)
    have h0 : (check_transform_success (some entries) (some lg)).is_success =
        ((check_transform_success (some entries)
           (some lg)).details.log_success_message ||
         (decide (2 ≤ (check_transform_success (some entries)
            (some lg)).details.outputs_found.length) &&
          (check_transform_success (some entries)
            (some lg)).details.outputs_found.contains "Documentation")) := rfl
    constructor
    · rw [h0, hlog]
      rfl
    · exact (confidence_cases
        ((check_transform_success (some entries)
          (some lg)).details.log_success_message)
        ((check_transform_success (some entries)
          (some lg)).details.outputs_found.length)
        ((check_transform_success (some entries)
          (some lg)).details.outputs_found.contains "Documentation")).1.mpr
        ⟨hlog, hlen⟩

/-- Witness for C4: the Documentation marker and `.aws`, with the definitive
success phrase in the log. -/
theorem c4_confidence_levels_witness :
    (check_transform_success (some ["Documentation", ".aws"])
      (some "successfully completed with all exit criteria met")).is_success
      = true ∧
    (check_transform_success (some ["Documentation", ".aws"])
      (some "successfully completed with all exit criteria met")).confidence
      = "high" :=
  c4_confidence_levels.2 ["Documentation", ".aws"]
    "successfully completed with all exit criteria met" ".aws"
    (by decide) (by decide) (by decide) (by decide) (by decide)

/-- Counterexample to claim C5: during a save with old ledger text `['a']` and
new ledger text `['b', 'c']`, a reader can observe on-disk contents that are
neither the complete old contents nor the complete new contents — the
truncated empty file is an observable state of the in-place rewrite. -/
theorem c5_counterexample_truncation_observable :
    ¬ (∀ s ∈ save_registry_observable ['b', 'c'], s = ['a'] ∨ s = ['b', 'c']) := by
  decide

/-- Claim C5 as amended: `save_registry` rewrites the ledger file in place
(truncate, then write) rather than atomically replacing it.  The truncated
empty file is an observable state of every save, every observable state is a
prefix of the new contents, and a completed save leaves exactly the new
contents. -/
theorem c5_amended_save_truncate_then_write (newContents : List Char) :
    [] ∈ save_registry_observable newContents ∧
    newContents ∈ save_registry_observable newContents ∧
    ∀ s ∈ save_registry_observable newContents, s <+: newContents := by
  refine ⟨?_, ?_, ?_⟩
  · exact List.mem_map.mpr ⟨0, List.mem_range.mpr (Nat.succ_pos _), rfl⟩
  · exact List.mem_map.mpr ⟨newContents.length,
      List.mem_range.mpr (Nat.lt_succ_self _), List.take_length newContents⟩
  · intro s hs
    obtain ⟨i, _, hi⟩ := List.mem_map.mp hs
    rw [← hi]
    exact List.take_prefix i newContents

/-- Witness for the amended C5 at a concrete save. -/
theorem c5_amended_witness :
    [] ∈ save_registry_observable ['x'] ∧ ([] : List Char) <+: ['x'] :=
  ⟨(c5_amended_save_truncate_then_write ['x']).1,
   (c5_amended_save_truncate_then_write ['x']).2.2 [] (by decide)⟩

/-- Claim C6: on an upsert of an existing entry, status and timestamp are
always updated, the language field only when a non-default (not "unknown")
language is supplied, the notes field only when explicit (truthy) notes are
supplied, and an upsert to `analyzed` with no explicit notes removes any
previously stored notes; for an absent repo_name a new entry is appended
(the Python default for `language` being "unknown"). -/
theorem c6_upsert_spec (repos : List RegistryEntry) (name url status lang : String)
    (notes : Option String) (now : Nat) :
    (∀ e, findEntry repos name = some e →
      ∃ e', findEntry (update_registry_entry repos name url status lang notes now)
          name = some e' ∧
        e'.analysis_status = status ∧ e'.analysis_date = now ∧
        e'.repo_name = e.repo_name ∧ e'.git_url = e.git_url ∧
        e'.language = (if lang = "unknown" then e.language else lang) ∧
        e'.notes = (if notesTruthy notes then notes
                    else if status = "analyzed" then none else e.notes)) ∧
    (findEntry repos name = none →
      update_registry_entry repos name url status lang notes now =
        repos ++ [{ repo_name := name, git_url := url, language := lang,
                    analysis_status := status, analysis_date := now,
                    notes := if notesTruthy notes then notes else none }]) := by
  induction repos with
  | nil =>
    constructor
    · intro e he
      exact Option.noConfusion he
    · intro _
      rfl
  | cons e0 rest ih =>
    cases h : (e0.repo_name == name) with
    | true =>
      constructor
      · intro e he
        have he0 : e0 = e := by
          rw [findEntry, List.find?_cons, h] at he
          exact Option.some.inj he
        subst he0
        refine ⟨{ e0 with
            analysis_status := status, analysis_date := now,
            language := if (lang == "unknown") = true then e0.language else lang,
            notes := if notesTruthy notes = true then notes
                     else if (e0.notes.isSome && (status == "analyzed")) = true
                     then none else e0.notes }, ?_, rfl, rfl, rfl, rfl, ?_, ?_⟩
        · rw [update_registry_entry, if_pos h, findEntry, List.find?_cons]
          have hcond : (({ e0 with
              analysis_status := status, analysis_date := now,
              language := if (lang == "unknown") = true then e0.language else lang,
              notes := if notesTruthy notes = true then notes
                       else if (e0.notes.isSome && (status == "analyzed")) = true
                       then none else e0.notes } : RegistryEntry).repo_name == name)
              = true := h
          rw [hcond]
        · by_cases hl : lang = "unknown"
          · simp [hl]
          · simp [hl, beq_eq_false_iff_ne.mpr hl]
        · by_cases hn : notesTruthy notes = true
          · simp [hn]
          · by_cases hs : status = "analyzed"
            · cases hno : e0.notes with
              | none => simp [hn, hs, hno]
              | some s0 => simp [hn, hs, hno]
            · simp [hn, hs, beq_eq_false_iff_ne.mpr hs]
      · intro he
        rw [findEntry, List.find?_cons, h] at he
        exact Option.noConfusion he
    | false =>
      constructor
      · intro e he
        rw [findEntry, List.find?_cons, h] at he
        obtain ⟨e', he', hfields⟩ := ih.1 e he
        refine ⟨e', ?_, hfields⟩
        rw [update_registry_entry, if_neg (by rw [h]; exact Bool.false_ne_true),
          findEntry, List.find?_cons, h]
        exact he'
      · intro he
        rw [findEntry, List.find?_cons, h] at he
        rw [update_registry_entry, if_neg (by rw [h]; exact Bool.false_ne_true),
          ih.2 he, List.cons_append]

/-- Witness for C6: upserting the failed entry to `analyzed` with no notes
updates status and timestamp, keeps the language, and clears the old notes. -/
theorem c6_upsert_spec_witness :
    ∃ e', findEntry (update_registry_entry [sampleFailedEntry] "repo-a" "url-a"
        "analyzed" "unknown" none 9) "repo-a" = some e' ∧
      e'.analysis_status = "analyzed" ∧ e'.analysis_date = 9 ∧
      e'.repo_name = sampleFailedEntry.repo_name ∧
      e'.git_url = sampleFailedEntry.git_url ∧
      e'.language = (if "unknown" = "unknown" then sampleFailedEntry.language
                     else "unknown") ∧
      e'.notes = (if notesTruthy none then none
                  else if "analyzed" = "analyzed" then none
                  else sampleFailedEntry.notes) :=
  (c6_upsert_spec [sampleFailedEntry] "repo-a" "url-a" "analyzed" "unknown" none
    9).1 sampleFailedEntry (by decide)

/-- Claim C10 (implicit): when the working-directory path does not exist, both
outputs_found and outputs_missing are empty — no marker is reported missing —
so is_success reduces to the log signal alone, and on the failure path the
missing-outputs text of the ledger note is rendered as "all" rather than a
list of the five markers. -/
theorem c10_missing_clone_dir (logContent : Option String) (repoName : String) :
    (check_transform_success none logContent).details.outputs_found = [] ∧
    (check_transform_success none logContent).details.outputs_missing = [] ∧
    (check_transform_success none logContent).is_success =
      (check_transform_success none logContent).details.log_success_message ∧
    failureNote (check_transform_success none logContent).details.outputs_missing
      repoName =
      "Transform execution failed. Missing outputs: " ++ "all" ++
        ". Check repos/" ++ repoName ++ "_transform.log" := by
  refine ⟨rfl, rfl, ?_, ?_⟩
  · have h0 : (check_transform_success none logContent).is_success =
        ((check_transform_success none logContent).details.log_success_message ||
         (decide (2 ≤ (check_transform_success none
            logContent).details.outputs_found.length) &&
          (check_transform_success none
            logContent).details.outputs_found.contains "Documentation")) := rfl
    have hfound : (check_transform_success none logContent).details.outputs_found
        = [] := rfl
    rw [h0, hfound]
    simp
  · have hmiss : (check_transform_success none logContent).details.outputs_missing
        = [] := rfl
    rw [hmiss, failureNote]
    simp

/-- Claim C2, behaviour of the code at the failing input: a run whose first
repository's acquisition (stale-copy removal plus clone) fails.  The `finally`
block evaluates success reading the variable `log_file_path`, which has never
been assigned, so the turn aborts with an unhandled NameError: no transition
to `failed` is recorded (the entry is left at `pending`), and the turn does
not end normally. -/
theorem c2_clone_failure_first_repo_name_error :
    (mainRun [] [({ name := "repo-x", git_url := "url-x" },
        { cloneOk := false, atxOk := false, cloneContents := [], logOutput := "" })]
      false).outcome = BatchOutcome.abortedNameError ∧
    statusOf (mainRun [] [({ name := "repo-x", git_url := "url-x" },
        { cloneOk := false, atxOk := false, cloneContents := [], logOutput := "" })]
      false).registry "repo-x" = some "pending" :=
  ⟨by decide, by decide⟩

/-- Counterexample to claim C1: a batch of two discovered repositories in
which the first ends its turn with `is_success` false and a failed process.
The run terminates with exit status 1 at the end of the first turn — the
second repository is never processed — although discovery succeeded and the
ledger was intact. -/
theorem c1_counterexample_batch_aborts :
    (mainRun [] [({ name := "repo-1", git_url := "url-1" },
        { cloneOk := true, atxOk := false, cloneContents := [], logOutput := "" }),
       ({ name := "repo-2", git_url := "url-2" },
        { cloneOk := true, atxOk := true,
          cloneContents := ["Documentation", ".aws"], logOutput := "" })]
      false).outcome = BatchOutcome.abortedExitOne ∧
    (mainRun [] [({ name := "repo-1", git_url := "url-1" },
        { cloneOk := true, atxOk := false, cloneContents := [], logOutput := "" }),
       ({ name := "repo-2", git_url := "url-2" },
        { cloneOk := true, atxOk := true,
          cloneContents := ["Documentation", ".aws"], logOutput := "" })]
      false).processed = ["repo-1"] :=
  ⟨by decide, by decide⟩

/-- Claim C1 as amended: a failure local to one repository does abort the
batch.  When a repository's clone succeeds but its process fails and the
evaluator finds no success, the turn records `failed` for that repository and
the loop exits with status 1: the repositories after it are not processed. -/
theorem c1_amended_true_failure_aborts (st : OrchState) (repo : RepoRef)
    (env : RepoEnv) (rest : List (RepoRef × RepoEnv))
    (hclone : env.cloneOk = true) (hatx : env.atxOk = false)
    (heval : (check_transform_success (some env.cloneContents)
      (some env.logOutput)).is_success = false) :
    (runLoop st ((repo, env) :: rest)).2.1 = BatchOutcome.abortedExitOne ∧
    (runLoop st ((repo, env) :: rest)).2.2 = [repo.name] ∧
    statusOf (runLoop st ((repo, env) :: rest)).1.registry repo.name
      = some "failed" := by
  have hpr : processRepo st repo env =
      ({ registry := update_registry_entry
           (update_registry_entry st.registry repo.name repo.git_url "running"
             "unknown" none st.clock)
           repo.name repo.git_url "failed" "unknown"
           (some (failureNote (check_transform_success (some env.cloneContents)
             (some env.logOutput)).details.outputs_missing repo.name))
           (st.clock + 1),
         logs := setLog st.logs repo.name env.logOutput,
         logVar := some repo.name,
         clock := st.clock + 2,
         saves := st.saves + 2,
         clones := st.clones + 1 }, some TurnAbort.exitOne) := by
    simp [processRepo, hclone, hatx, lookupLog_setLog, heval]
  have hloop : runLoop st ((repo, env) :: rest) =
      ((processRepo st repo env).1, BatchOutcome.abortedExitOne, [repo.name]) := by
    simp only [runLoop]
    rw [hpr]
  rw [hloop, hpr]
  exact ⟨rfl, rfl, statusOf_update_self _ _ _ _ _ _ _⟩

/-- Witness for the amended C1 at a concrete state and batch. -/
theorem c1_amended_witness :
    (runLoop w1State w1Batch).2.1 = BatchOutcome.abortedExitOne ∧
    (runLoop w1State w1Batch).2.2 = ["w1"] ∧
    statusOf (runLoop w1State w1Batch).1.registry "w1" = some "failed" :=
  c1_amended_true_failure_aborts w1State
    { name := "w1", git_url := "wu1" }
    { cloneOk := true, atxOk := false, cloneContents := [], logOutput := "" }
    [({ name := "w2", git_url := "wu2" },
      { cloneOk := true, atxOk := true, cloneContents := [], logOutput := "" })]
    (by decide) (by decide) (by decide)

/-- Claim C7: when every discovered repository already has a ledger entry at
`analyzed` and force is off, the run performs zero working-copy acquisitions,
calls `save_registry` zero times, and returns the ledger exactly as loaded:
every repository is skipped entirely. -/
theorem c7_second_run_noop (registry0 : List RegistryEntry)
    (discovered : List (RepoRef × RepoEnv))
    (h : ∀ p ∈ discovered, ∃ e, findEntry registry0 p.1.name = some e ∧
      e.analysis_status = "analyzed") :
    mainRun registry0 discovered false =
      { registry := registry0, clones := 0, saves := 0,
        outcome := BatchOutcome.completed, processed := [] } := by
  have hsel : selectRepos registry0 false discovered = [] := by
    rw [selectRepos, List.filter_eq_nil_iff]
    intro p hp
    obtain ⟨e, he, hst⟩ := h p hp
    simp [he, hst]
  simp [mainRun, hsel]

/-- Witness for C7: a second run over two already-analyzed repositories does
nothing. -/
theorem c7_second_run_noop_witness :
    mainRun c7Registry c7Batch false =
      { registry := c7Registry, clones := 0, saves := 0,
        outcome := BatchOutcome.completed, processed := [] } :=
  c7_second_run_noop c7Registry c7Batch (by
    intro p hp
    rw [c7Batch] at hp
    rcases List.mem_cons.mp hp with h1 | h1
    · subst h1
      refine ⟨{ repo_name := "s1", git_url := "su1", language := "python",
                analysis_status := "analyzed", analysis_date := 11,
                notes := none }, by decide, rfl⟩
    · rcases List.mem_cons.mp h1 with h2 | h2
      · subst h2
        refine ⟨{ repo_name := "s2", git_url := "su2", language := "java",
                  analysis_status := "analyzed", analysis_date := 12,
                  notes := some "Analysis completed (confidence: high). Outputs: Documentation" },
                by decide, rfl⟩
      · cases h2)

/-- Counterexample to claim C8: with one discovered repository already at
`analyzed` (skipped) and one new, the pending-marking phase that runs before
any processing leaves the skipped repository at `analyzed` — not every
discovered repository is set to `pending`. -/
theorem c8_counterexample_skipped_not_pending :
    statusOf (markPending
      [{ repo_name := "r1", git_url := "u1", language := "unknown",
         analysis_status := "analyzed", analysis_date := 0, notes := none }] 0
      (selectRepos
        [{ repo_name := "r1", git_url := "u1", language := "unknown",
           analysis_status := "analyzed", analysis_date := 0, notes := none }]
        false
        [({ name := "r1", git_url := "u1" },
          { cloneOk := true, atxOk := true, cloneContents := [], logOutput := "" }),
         ({ name := "r2", git_url := "u2" },
          { cloneOk := true, atxOk := true, cloneContents := [],
            logOutput := "" })])).1 "r1" = some "analyzed" := by
  decide

/-- Claim C8 as amended: before any repository's processing begins, every
repository selected for analysis (every discovered repository except those
skipped because their entry is already `analyzed` without force) has its
ledger entry set to `pending`, and each skipped repository's entry is left
entirely unchanged at `analyzed` — so a ledger inspected mid-run still shows
every discovered repository in a defined state. -/
theorem c8_amended_pending_before_processing (registry0 : List RegistryEntry)
    (discovered : List (RepoRef × RepoEnv)) (clock : Nat) :
    (∀ p ∈ selectRepos registry0 false discovered,
      statusOf (markPending registry0 clock
        (selectRepos registry0 false discovered)).1 p.1.name = some "pending") ∧
    (∀ (name : String) (e : RegistryEntry), findEntry registry0 name = some e →
      e.analysis_status = "analyzed" →
      findEntry (markPending registry0 clock
        (selectRepos registry0 false discovered)).1 name = some e) := by
  constructor
  · intro p hp
    exact markPending_sets_pending _ _ _ p hp
  · intro name e he hst
    rw [markPending_preserves]
    · exact he
    · intro q hq hname
      have hq' := (List.mem_filter.mp hq).2
      rw [hname, he] at hq'
      simp [hst] at hq'

/-- Witness for the amended C8: the already-analyzed repository is skipped and
untouched, the new repository is marked pending. -/
theorem c8_amended_witness :
    statusOf (markPending c8Registry 0
      (selectRepos c8Registry false c8Batch)).1 "t2" = some "pending" ∧
    findEntry (markPending c8Registry 0
      (selectRepos c8Registry false c8Batch)).1 "t1" =
      some { repo_name := "t1", git_url := "v1", language := "unknown",
             analysis_status := "analyzed", analysis_date := 5, notes := none } :=
  ⟨(c8_amended_pending_before_processing c8Registry c8Batch 0).1
     ({ name := "t2", git_url := "v2" },
      { cloneOk := true, atxOk := true, cloneContents := [], logOutput := "" })
     (by decide),
   (c8_amended_pending_before_processing c8Registry c8Batch 0).2 "t1"
     { repo_name := "t1", git_url := "v1", language := "unknown",
       analysis_status := "analyzed", analysis_date := 5, notes := none }
     (by decide) rfl⟩

/-- Claim C9: artifact collection is additive.  Any file already present under
a destination subtree before collection is still present after collection
(`copytree` with `dirs_exist_ok` merges instead of deleting or replacing), so
running collection twice into the same destination with overlapping directory
contents loses no previously collected files. -/
theorem c9_collection_additive (items dest : List (String × List (String × String)))
    (n p : String)
    (h : (lookupFile ((lookupDir dest n).getD []) p).isSome = true) :
    (lookupFile ((lookupDir (collectOutputs items dest).1 n).getD []) p).isSome
      = true :=
  collectOutputs_preserves items dest n p h

/-- Witness for C9: collecting a Documentation subtree over a destination that
already holds a previously collected file keeps that file. -/
theorem c9_collection_additive_witness :
    (lookupFile ((lookupDir (collectOutputs
      [("Documentation", [("index.md", "new text")])]
      [("Documentation", [("old.md", "old text")])]).1 "Documentation").getD [])
      "old.md").isSome = true :=
  c9_collection_additive [("Documentation", [("index.md", "new text")])]
    [("Documentation", [("old.md", "old text")])] "Documentation" "old.md"
    (by decide)

end Phase1
